import Mathlib

/-!
# geoip-service: the cache-aside request path of `geoip.go`

A shallow embedding of the HTTP handler registered in `main` (`geoip.go`,
lines 53-110) together with the cache construction of lines 32-35.

The handler closes over four values fixed at start-up: the response cache
`memCache` (a nil pointer when caching is off), the flag `lookupCity`, the flag
`prettyL` and the database handle `db`.  Here the cache is explicit state that
is threaded through every request, the two flags are arguments, and everything
the handler calls outside this repository (`net.ParseIP`, `db.City`,
`db.Country`, `json.Marshal`, `json.MarshalIndent`) is a field of `Env`.

Time is a natural number of clock ticks; one request reads the clock once.
-/

namespace GeoIP

/-- A byte slice (`[]byte`), kept as text. -/
abbrev Bytes := String

/-- The `net.IP` value returned by `net.ParseIP`: a slice of bytes. -/
abbrev IP := List Nat

/-- A reading of the clock. -/
abbrev Time := Nat

/-- The constant `http.StatusBadRequest`. -/
def StatusBadRequest : Nat := 400

/-- The constant `http.StatusOK`, the status of a response whose handler never
calls `WriteHeader`. -/
def StatusOK : Nat := 200

/-- What the field `Data interface{}` of `Response` can hold in this program:
nothing, the `*geoip2.City` of line 101, the `*geoip2.Country` of line 108, or
the `json.RawMessage` of line 91. -/
inductive DataValue (C K : Type) where
  | null : DataValue C K
  | city (result : C) : DataValue C K
  | country (result : K) : DataValue C K
  | rawMessage (v : Bytes) : DataValue C K
  deriving DecidableEq, Repr

/-- The struct `Response` of lines 16-20.  An empty `Error` and a `null` `Data`
are the zero values that `omitempty` leaves out of the JSON. -/
structure Response (C K : Type) where
  Data : DataValue C K := DataValue.null
  Error : String := ""
  cached : Bool := false
  deriving DecidableEq, Repr

/-- One call of the handler into the geolocation database. -/
inductive Call where
  | City (ip : IP) : Call
  | Country (ip : IP) : Call
  deriving DecidableEq, Repr

deriving instance DecidableEq for Except

/-- The functions the handler calls that live outside this repository.
`City` and `Country` return the record or the text of the error
(`err.Error()`); the two serializers return the bytes or the error that
line 68 tests. -/
structure Env (C K : Type) where
  ParseIP : String → Option IP
  City : IP → Except String C
  Country : IP → Except String K
  Marshal : Response C K → Except String Bytes
  MarshalIndent : Response C K → String → String → Except String Bytes

/-! ## The response cache -/

/-- Modelled from the spec: one entry of the response cache, the stored bytes
and the instant after which the entry is expired (the go-cache package is not
part of this repository). -/
structure Item where
  Object : Bytes
  Expiration : Time
  deriving DecidableEq, Repr

/-- Modelled from the spec: the response cache of section 4.1, a store from the
raw key to an entry, with the TTL it was constructed with (the go-cache package
is not part of this repository). -/
structure Cache where
  defaultExpiration : Nat
  items : String → Option Item

/-- Modelled from the spec: `cache.New(ttl, sweepInterval)` gives an empty
store; the sweep interval plays no part in a single request. -/
def Cache.New (defaultExpiration : Nat) : Cache :=
  { defaultExpiration := defaultExpiration, items := fun _ => none }

/-- Modelled from the spec: an entry is expired once the time since insertion
exceeds the TTL. -/
def Item.Expired (i : Item) (now : Time) : Bool :=
  decide (i.Expiration < now)

/-- Modelled from the spec: `get(key)` returns the stored bytes if present and
not expired; a miss and an expired entry both give `none`. -/
def Cache.Get (c : Cache) (now : Time) (k : String) : Option Bytes :=
  match c.items k with
  | none => none
  | some i => if i.Expired now then none else some i.Object

/-- Modelled from the spec: `set(key, value)` stores the bytes against the
configured TTL and overwrites any entry of the same key.  The duration `0`
that line 72 passes stands for the default TTL. -/
def Cache.Set (c : Cache) (now : Time) (k : String) (x : Bytes) (d : Nat) : Cache :=
  let ttl := if d = 0 then c.defaultExpiration else d
  { c with items := fun k' => if k' = k then some { Object := x, Expiration := now + ttl }
                              else c.items k' }

/-- The value an integer has as an `int64`: arithmetic on `time.Duration` wraps
around. -/
def wrapInt64 (x : Int) : Int :=
  (x + 9223372036854775808) % 18446744073709551616 - 9223372036854775808

/-- The constant `time.Second`, a `time.Duration` counted in nanoseconds. -/
def Second : Int := 1000000000

/-- Lines 32-35 of `main`: the cache exists only for a positive `-cache` value.
Its TTL is the `int64` product `time.Duration(*cacheSecs)*time.Second` and its
sweep interval `1*time.Second`; `cacheNew` is the constructor `cache.New` of
the go-cache package, which receives the two durations. -/
def newMemCache (cacheNew : Int → Int → Cache) (cacheSecs : Int) : Option Cache :=
  if cacheSecs > 0 then
    some (cacheNew (wrapInt64 (cacheSecs * Second)) (wrapInt64 (1 * Second)))
  else none

/-- Lines 36-41 of `main`: the flag `lookupCity` for a `-lookup` value, or the
fatal start-up error for a value that is neither `city` nor `country`. -/
def lookupCityOf (lookup : String) : Except String Bool :=
  if lookup = "country" then Except.ok false
  else if lookup ≠ "city" then
    Except.error ("lookup parameter should be either 'city', or 'country', it is '" ++ lookup ++ "'")
  else Except.ok true

/-! ## The handler -/

/-- Lines 81-109: the body of the handler after the key is known.  The result
is the response struct as the deferred function will find it, the status, and
the calls made to the database. -/
def handlerBody {C K : Type} (env : Env C K) (lookupCity : Bool)
    (memCache : Option Cache) (now : Time) (ipText : String) :
    Response C K × Nat × List Call :=
  match env.ParseIP ipText with
  | none => ({ Error := "unable to decode ip" }, StatusBadRequest, [])
  | some ip =>
    match memCache.bind (fun c => c.Get now ipText) with
    | some v => ({ cached := true, Data := DataValue.rawMessage v }, StatusOK, [])
    | none =>
      if lookupCity then
        match env.City ip with
        | Except.error err => ({ Error := err }, StatusOK, [Call.City ip])
        | Except.ok result => ({ Data := DataValue.city result }, StatusOK, [Call.City ip])
      else
        match env.Country ip with
        | Except.error err => ({ Error := err }, StatusOK, [Call.Country ip])
        | Except.ok result => ({ Data := DataValue.country result }, StatusOK, [Call.Country ip])

/-- Lines 60-75: the deferred function.  It serializes the response struct,
stops the process on a serialization error, stores the bytes unless the
struct is marked `cached`, and writes them.  The result is what was written
(or the error handed to `log.Fatal`) and the cache afterwards. -/
def deferred {C K : Type} (env : Env C K) (prettyL : Bool)
    (memCache : Option Cache) (now : Time) (ipText : String) (res : Response C K) :
    Except String Bytes × Option Cache :=
  let r := if prettyL then env.MarshalIndent res "" "  " else env.Marshal res
  match r with
  | Except.error err => (Except.error err, memCache)
  | Except.ok j =>
    match memCache with
    | some c => (Except.ok j, if !res.cached then some (c.Set now ipText j 0) else some c)
    | none => (Except.ok j, none)

/-- Everything one request leaves behind. -/
structure Outcome (C K : Type) where
  res : Response C K
  status : Nat
  calls : List Call
  written : Except String Bytes
  memCache : Option Cache

/-- The handler from line 81 on, for the key `ipText`: the body, then the
deferred function. -/
def handleKey {C K : Type} (env : Env C K) (lookupCity prettyL : Bool)
    (memCache : Option Cache) (now : Time) (ipText : String) : Outcome C K :=
  let b := handlerBody env lookupCity memCache now ipText
  let d := deferred env prettyL memCache now ipText b.1
  { res := b.1, status := b.2.1, calls := b.2.2, written := d.1, memCache := d.2 }

/-- The part of `*http.Request` the handler reads: the value of the query
parameter `ip` (empty when there is none) and the path. -/
structure Request where
  queryIp : String
  path : String

/-- The call `strings.Trim(s, "/")`: the text without its leading and trailing
slashes. -/
def trimSlashes (s : String) : String :=
  String.mk ((s.data.dropWhile (fun c => c == '/')).reverse.dropWhile (fun c => c == '/')).reverse

/-- Lines 77-80: the key of a request. -/
def ipTextOf (req : Request) : String :=
  if req.queryIp = "" then trimSlashes req.path else req.queryIp

/-- The handler of lines 53-110. -/
def handler {C K : Type} (env : Env C K) (lookupCity prettyL : Bool)
    (memCache : Option Cache) (now : Time) (req : Request) : Outcome C K :=
  handleKey env lookupCity prettyL memCache now (ipTextOf req)

/-- A run of the process: the requests are handled one after the other, each
with its own reading of the clock, and the cache left by one is the cache the
next one finds.  A serialization error ends the process (`log.Fatal`), so no
later request is handled. -/
def serve {C K : Type} (env : Env C K) (lookupCity prettyL : Bool) :
    Option Cache → List (Time × String) → List (Outcome C K)
  | _, [] => []
  | memCache, (now, ipText) :: rest =>
    let o := handleKey env lookupCity prettyL memCache now ipText
    match o.written with
    | Except.error _ => [o]
    | Except.ok _ => o :: serve env lookupCity prettyL o.memCache rest

/-- The invariant of a run: every entry of the cache holds the bytes written by
an earlier request for the same key that was not served from the cache. -/
def StoredByMiss {C K : Type} (memCache : Option Cache)
    (past : List ((Time × String) × Outcome C K)) : Prop :=
  ∀ c k it, memCache = some c → c.items k = some it →
    ∃ y ∈ past, y.1.2 = k ∧ y.2.res.cached = false ∧ y.2.written = Except.ok it.Object

/-! ## A concrete environment

A small database and the JSON encoding of `Response`, used to run the handler
on concrete requests. -/

/-- The white space that `json.Compact` and `json.Indent` drop outside string
literals. -/
def isJSONSpace (c : Char) : Bool :=
  c == ' ' || c == '\n' || c == '\t' || c == '\r'

/-- The scan of `json.Compact`: `inStr` tells whether the scan is inside a
string literal, `esc` whether the previous character was a backslash there. -/
def compactChars : Bool → Bool → List Char → List Char
  | _, _, [] => []
  | true, true, c :: cs => c :: compactChars true false cs
  | true, false, c :: cs => c :: compactChars (c != '"') (c == '\\') cs
  | false, _, c :: cs =>
    if isJSONSpace c then compactChars false false cs
    else c :: compactChars (c == '"') false cs

/-- The function `json.Compact` on well-formed JSON. -/
def jsonCompact (s : String) : String :=
  String.mk (compactChars false false s.data)

/-- A line break followed by the prefix and `depth` copies of the indent. -/
def newlineChars (pfx indent : String) (depth : Nat) : List Char :=
  '\n' :: (pfx.data ++ (List.replicate depth indent.data).flatten)

/-- The scan of `json.Indent` over compact JSON: `needIndent` delays the line
break after an opening bracket so that empty objects and arrays stay closed. -/
def indentChars (pfx indent : String) :
    Bool → Bool → Bool → Nat → List Char → List Char
  | _, _, _, _, [] => []
  | true, true, needIndent, depth, c :: cs =>
    c :: indentChars pfx indent true false needIndent depth cs
  | true, false, needIndent, depth, c :: cs =>
    c :: indentChars pfx indent (c != '"') (c == '\\') needIndent depth cs
  | false, _, needIndent, depth, c :: cs =>
    if isJSONSpace c then indentChars pfx indent false false needIndent depth cs
    else if c == '}' || c == ']' then
      if needIndent then c :: indentChars pfx indent false false false depth cs
      else newlineChars pfx indent (depth - 1) ++
        c :: indentChars pfx indent false false false (depth - 1) cs
    else
      let depth1 := if needIndent then depth + 1 else depth
      let lead := if needIndent then newlineChars pfx indent depth1 else []
      if c == '{' || c == '[' then
        lead ++ c :: indentChars pfx indent false false true depth1 cs
      else if c == ',' then
        lead ++ c :: (newlineChars pfx indent depth1 ++
          indentChars pfx indent false false false depth1 cs)
      else if c == ':' then
        lead ++ c :: ' ' :: indentChars pfx indent false false false depth1 cs
      else
        lead ++ c :: indentChars pfx indent (c == '"') false false depth1 cs

/-- The function `json.Indent` on well-formed JSON. -/
def jsonIndent (pfx indent : String) (s : String) : String :=
  String.mk (indentChars pfx indent false false false 0 s.data)

/-- A JSON string literal; the quote and the backslash are escaped. -/
def jsonString (s : String) : String :=
  String.mk ('"' :: (s.data.flatMap (fun c => if c == '"' || c == '\\' then ['\\', c] else [c])
    ++ ['"']))

/-- The members of the JSON object for a `Response`: `Data` and `Error` are
left out when empty (`omitempty`), `cached` is unexported.  A city record is
its name, a country record its ISO code; a raw message is emitted compacted. -/
def sampleMembers (res : Response String String) : List String :=
  (match res.Data with
    | DataValue.null => []
    | DataValue.city result => ["\"Data\":\x7b\"city\":" ++ jsonString result ++ "\x7d"]
    | DataValue.country result => ["\"Data\":\x7b\"country\":" ++ jsonString result ++ "\x7d"]
    | DataValue.rawMessage v => ["\"Data\":" ++ jsonCompact v]) ++
  (if res.Error = "" then [] else ["\"Error\":" ++ jsonString res.Error])

/-- The encoding `json.Marshal` of a `Response`. -/
def sampleMarshal (res : Response String String) : String :=
  "\x7b" ++ ",".intercalate (sampleMembers res) ++ "\x7d"

/-- The loopback address as sixteen bytes. -/
def loopback6 : IP := [0, 0, 0, 0, 0, 0, 0, 0, 0, 0, 0, 0, 0, 0, 0, 1]

/-- A parser that knows four spellings of three addresses and rejects every
other text, the empty one included. -/
def sampleParseIP (s : String) : Option IP :=
  if s = "8.8.8.8" then some [8, 8, 8, 8]
  else if s = "203.0.113.5" then some [203, 0, 113, 5]
  else if s = "::1" then some loopback6
  else if s = "0:0:0:0:0:0:0:1" then some loopback6
  else none

/-- A database that knows `8.8.8.8` and nothing else. -/
def sampleEnv : Env String String where
  ParseIP := sampleParseIP
  City := fun ip =>
    if ip = [8, 8, 8, 8] then Except.ok "Mountain View" else Except.error "not found"
  Country := fun ip =>
    if ip = [8, 8, 8, 8] then Except.ok "US" else Except.error "not found"
  Marshal := fun res => Except.ok (sampleMarshal res)
  MarshalIndent := fun res pfx indent => Except.ok (jsonIndent pfx indent (sampleMarshal res))

/-- A constructor for `newMemCache`: an empty cache whose TTL is the duration
it is given, one tick to the nanosecond. -/
def sampleCacheNew (defaultExpiration _cleanupInterval : Int) : Cache :=
  Cache.New defaultExpiration.toNat

/-- A cache with a TTL of sixty ticks and no entry. -/
def emptyCache : Cache := Cache.New 60

/-- The cache `emptyCache` after the country of `8.8.8.8` was stored at time 0. -/
def warmCache : Cache :=
  emptyCache.Set 0 "8.8.8.8" "\x7b\"Data\":\x7b\"country\":\"US\"\x7d\x7d" 0

/-- Four requests at the times 0 to 3: an address, twice a text that is no
address, and the first address again. -/
def sampleRun : List (Time × String) :=
  [(0, "8.8.8.8"), (1, "not-an-ip"), (2, "not-an-ip"), (3, "8.8.8.8")]

/-- The run `sampleRun` from the empty cache, each request with its outcome. -/
def sampleTrace : List ((Time × String) × Outcome String String) :=
  sampleRun.zip (serve sampleEnv false false (some (Cache.New 60)) sampleRun)

/-- The cache `emptyCache` after a failed lookup of `::1` was stored at time 0. -/
def loopbackCache : Cache :=
  emptyCache.Set 0 "::1" "\x7b\"Error\":\"not found\"\x7d" 0

/-! ## The three paths of the handler body -/

theorem handlerBody_invalid {C K : Type} (env : Env C K) (lookupCity : Bool)
    (memCache : Option Cache) (now : Time) (ipText : String)
    (h : env.ParseIP ipText = none) :
    handlerBody env lookupCity memCache now ipText =
      ({ Error := "unable to decode ip" }, StatusBadRequest, []) := by
  simp [handlerBody, h]

theorem handlerBody_hit {C K : Type} (env : Env C K) (lookupCity : Bool)
    (memCache : Option Cache) (now : Time) (ipText : String) (ip : IP) (v : Bytes)
    (h : env.ParseIP ipText = some ip)
    (hv : memCache.bind (fun c => c.Get now ipText) = some v) :
    handlerBody env lookupCity memCache now ipText =
      ({ cached := true, Data := DataValue.rawMessage v }, StatusOK, []) := by
  simp [handlerBody, h, hv]

theorem handlerBody_miss {C K : Type} (env : Env C K) (lookupCity : Bool)
    (memCache : Option Cache) (now : Time) (ipText : String) (ip : IP)
    (h : env.ParseIP ipText = some ip)
    (hv : memCache.bind (fun c => c.Get now ipText) = none) :
    handlerBody env lookupCity memCache now ipText =
      if lookupCity then
        match env.City ip with
        | Except.error err => ({ Error := err }, StatusOK, [Call.City ip])
        | Except.ok result => ({ Data := DataValue.city result }, StatusOK, [Call.City ip])
      else
        match env.Country ip with
        | Except.error err => ({ Error := err }, StatusOK, [Call.Country ip])
        | Except.ok result =>
          ({ Data := DataValue.country result }, StatusOK, [Call.Country ip]) := by
  simp [handlerBody, h, hv]

theorem handlerBody_miss_not_cached {C K : Type} (env : Env C K) (lookupCity : Bool)
    (memCache : Option Cache) (now : Time) (ipText : String)
    (hv : memCache.bind (fun c => c.Get now ipText) = none) :
    (handlerBody env lookupCity memCache now ipText).1.cached = false := by
  unfold handlerBody
  rw [hv]
  cases env.ParseIP ipText with
  | none => rfl
  | some ip =>
    cases lookupCity
    · simp only [Bool.false_eq_true, if_false]
      cases env.Country ip <;> rfl
    · simp only [if_true]
      cases env.City ip <;> rfl

/-- A response marked `cached` comes from a key that parses and from the bytes
the cache returned for that key. -/
theorem handlerBody_cached {C K : Type} (env : Env C K) (lookupCity : Bool)
    (memCache : Option Cache) (now : Time) (ipText : String)
    (h : (handlerBody env lookupCity memCache now ipText).1.cached = true) :
    env.ParseIP ipText ≠ none ∧
      ∃ v, memCache.bind (fun c => c.Get now ipText) = some v ∧
        (handlerBody env lookupCity memCache now ipText).1.Data = DataValue.rawMessage v := by
  cases hp : env.ParseIP ipText with
  | none => rw [handlerBody_invalid env lookupCity memCache now ipText hp] at h; cases h
  | some ip =>
    cases hv : memCache.bind (fun c => c.Get now ipText) with
    | none =>
      rw [handlerBody_miss_not_cached env lookupCity memCache now ipText hv] at h; cases h
    | some v =>
      refine ⟨by simp, v, rfl, ?_⟩
      rw [handlerBody_hit env lookupCity memCache now ipText ip v hp hv]

/-! ## The deferred function -/

theorem deferred_written {C K : Type} (env : Env C K) (prettyL : Bool)
    (memCache : Option Cache) (now : Time) (ipText : String) (res : Response C K) :
    (deferred env prettyL memCache now ipText res).1 =
      if prettyL then env.MarshalIndent res "" "  " else env.Marshal res := by
  unfold deferred
  cases prettyL
  · simp only [Bool.false_eq_true, if_false]
    cases env.Marshal res with
    | error e => rfl
    | ok j => cases memCache <;> rfl
  · simp only [if_true]
    cases env.MarshalIndent res "" "  " with
    | error e => rfl
    | ok j => cases memCache <;> rfl

theorem deferred_cached {C K : Type} (env : Env C K) (prettyL : Bool)
    (memCache : Option Cache) (now : Time) (ipText : String) (res : Response C K)
    (h : res.cached = true) :
    (deferred env prettyL memCache now ipText res).2 = memCache := by
  unfold deferred
  cases (if prettyL then env.MarshalIndent res "" "  " else env.Marshal res) with
  | error e => rfl
  | ok j => cases memCache <;> simp [h]

theorem deferred_store {C K : Type} (env : Env C K) (prettyL : Bool)
    (c : Cache) (now : Time) (ipText : String) (res : Response C K) (j : Bytes)
    (h : res.cached = false)
    (hw : (deferred env prettyL (some c) now ipText res).1 = Except.ok j) :
    (deferred env prettyL (some c) now ipText res).2 = some (c.Set now ipText j 0) := by
  rw [deferred_written] at hw
  unfold deferred
  rw [hw]
  simp [h]

theorem deferred_fatal {C K : Type} (env : Env C K) (prettyL : Bool)
    (memCache : Option Cache) (now : Time) (ipText : String) (res : Response C K)
    (err : String)
    (hw : (deferred env prettyL memCache now ipText res).1 = Except.error err) :
    (deferred env prettyL memCache now ipText res).2 = memCache := by
  rw [deferred_written] at hw
  unfold deferred
  rw [hw]

theorem deferred_none {C K : Type} (env : Env C K) (prettyL : Bool)
    (now : Time) (ipText : String) (res : Response C K) :
    (deferred env prettyL none now ipText res).2 = none := by
  unfold deferred
  cases (if prettyL then env.MarshalIndent res "" "  " else env.Marshal res) <;> rfl

/-! ## The store -/

theorem Cache.Set_items_self (c : Cache) (now : Time) (k : String) (x : Bytes) :
    (c.Set now k x 0).items k = some { Object := x, Expiration := now + c.defaultExpiration } := by
  simp [Cache.Set]

theorem Cache.Set_items_other (c : Cache) (now : Time) (k k' : String) (x : Bytes) (d : Nat)
    (h : k' ≠ k) : (c.Set now k x d).items k' = c.items k' := by
  simp [Cache.Set, h]

theorem Cache.Set_defaultExpiration (c : Cache) (now : Time) (k : String) (x : Bytes)
    (d : Nat) : (c.Set now k x d).defaultExpiration = c.defaultExpiration := rfl

theorem Cache.Get_of_items (c : Cache) (now : Time) (k : String) (i : Item)
    (h : c.items k = some i) (hnow : now ≤ i.Expiration) : c.Get now k = some i.Object := by
  simp [Cache.Get, h, Item.Expired, Nat.not_lt.mpr hnow]

theorem Cache.items_of_Get (c : Cache) (now : Time) (k : String) (v : Bytes)
    (h : c.Get now k = some v) : ∃ i, c.items k = some i ∧ i.Object = v := by
  unfold Cache.Get at h
  cases hi : c.items k with
  | none => rw [hi] at h; cases h
  | some i =>
    rw [hi] at h
    refine ⟨i, rfl, ?_⟩
    by_cases he : i.Expired now = true
    · simp [he] at h
    · simpa [he] using h

/-! ## One request after another -/

theorem handleKey_none_time {C K : Type} (env : Env C K) (lookupCity prettyL : Bool)
    (now now' : Time) (ipText : String) :
    handleKey env lookupCity prettyL none now ipText =
      handleKey env lookupCity prettyL none now' ipText := by
  simp [handleKey, handlerBody, deferred]

theorem handleKey_none_memCache {C K : Type} (env : Env C K) (lookupCity prettyL : Bool)
    (now : Time) (ipText : String) :
    (handleKey env lookupCity prettyL none now ipText).memCache = none := by
  simp only [handleKey]
  exact deferred_none env prettyL now ipText _

/-- The cache after a request that wrote `j`: either the cache before, or the
cache before with `j` stored under the key by a request not marked `cached`. -/
theorem handleKey_memCache_cases {C K : Type} (env : Env C K) (lookupCity prettyL : Bool)
    (memCache : Option Cache) (now : Time) (ipText : String) (j : Bytes)
    (hw : (handleKey env lookupCity prettyL memCache now ipText).written = Except.ok j) :
    (handleKey env lookupCity prettyL memCache now ipText).memCache = memCache ∨
    ((handleKey env lookupCity prettyL memCache now ipText).res.cached = false ∧
      ∃ c, memCache = some c ∧
        (handleKey env lookupCity prettyL memCache now ipText).memCache =
          some (c.Set now ipText j 0)) := by
  cases hc : (handleKey env lookupCity prettyL memCache now ipText).res.cached with
  | true =>
    left
    simp only [handleKey] at hc ⊢
    exact deferred_cached env prettyL memCache now ipText _ hc
  | false =>
    cases memCache with
    | none => left; exact handleKey_none_memCache env lookupCity prettyL now ipText
    | some c =>
      right
      refine ⟨rfl, c, rfl, ?_⟩
      simp only [handleKey] at hc hw ⊢
      exact deferred_store env prettyL c now ipText _ j hc hw

theorem StoredByMiss_step {C K : Type} (env : Env C K) (lookupCity prettyL : Bool)
    (memCache : Option Cache) (past : List ((Time × String) × Outcome C K))
    (now : Time) (ipText : String) (j : Bytes)
    (hinv : StoredByMiss memCache past)
    (hw : (handleKey env lookupCity prettyL memCache now ipText).written = Except.ok j) :
    StoredByMiss (handleKey env lookupCity prettyL memCache now ipText).memCache
      (past ++ [((now, ipText), handleKey env lookupCity prettyL memCache now ipText)]) := by
  intro c' k it hc' hit
  rcases handleKey_memCache_cases env lookupCity prettyL memCache now ipText j hw with
    h | ⟨hnc, c, hc, hset⟩
  · rw [h] at hc'
    obtain ⟨y, hy, hrest⟩ := hinv c' k it hc' hit
    exact ⟨y, List.mem_append_left _ hy, hrest⟩
  · rw [hset] at hc'
    have hceq : c.Set now ipText j 0 = c' := Option.some.inj hc'
    subst hceq
    by_cases hk : k = ipText
    · subst hk
      rw [Cache.Set_items_self] at hit
      have hobj : it.Object = j := by
        have := Option.some.inj hit
        rw [← this]
      refine ⟨((now, k), handleKey env lookupCity prettyL memCache now k),
        List.mem_append_right _ (List.mem_singleton.mpr rfl), rfl, hnc, ?_⟩
      rw [hobj]
      exact hw
    · rw [Cache.Set_items_other c now ipText k j 0 hk] at hit
      obtain ⟨y, hy, hrest⟩ := hinv c k it hc hit
      exact ⟨y, List.mem_append_left _ hy, hrest⟩

theorem serve_served_from_past {C K : Type} (env : Env C K) (lookupCity prettyL : Bool) :
    ∀ (reqs : List (Time × String)) (memCache : Option Cache)
      (past : List ((Time × String) × Outcome C K)),
      StoredByMiss memCache past →
      ∀ pre x post,
        reqs.zip (serve env lookupCity prettyL memCache reqs) = pre ++ x :: post →
        x.2.res.cached = true →
        env.ParseIP x.1.2 ≠ none ∧
        ∃ y ∈ past ++ pre, y.1.2 = x.1.2 ∧ y.2.res.cached = false ∧
          ∃ b, y.2.written = Except.ok b ∧ x.2.res.Data = DataValue.rawMessage b := by
  intro reqs
  induction reqs with
  | nil =>
    intro memCache past _ pre x post hz _
    simp [serve] at hz
  | cons r rest ih =>
    obtain ⟨now, ipText⟩ := r
    intro memCache past hinv pre x post hz hx
    have hhead : ∃ tail, ((now, ipText) :: rest).zip
        (serve env lookupCity prettyL memCache ((now, ipText) :: rest)) =
        ((now, ipText), handleKey env lookupCity prettyL memCache now ipText) :: tail ∧
        (tail = [] ∨ ∃ j,
          (handleKey env lookupCity prettyL memCache now ipText).written = Except.ok j ∧
          tail = rest.zip (serve env lookupCity prettyL
            (handleKey env lookupCity prettyL memCache now ipText).memCache rest)) := by
      cases hw : (handleKey env lookupCity prettyL memCache now ipText).written with
      | error e =>
        refine ⟨[], ?_, Or.inl rfl⟩
        simp only [serve]
        rw [hw]
        simp
      | ok j =>
        refine ⟨_, ?_, Or.inr ⟨j, rfl, rfl⟩⟩
        simp only [serve]
        rw [hw]
        simp
    obtain ⟨tail, htail, hcases⟩ := hhead
    rw [htail] at hz
    cases pre with
    | nil =>
      simp only [List.nil_append, List.cons.injEq] at hz
      obtain ⟨hxe, _⟩ := hz
      subst hxe
      simp only [handleKey] at hx
      obtain ⟨hp, v, hv, hdata⟩ := handlerBody_cached env lookupCity memCache now ipText hx
      refine ⟨hp, ?_⟩
      cases memCache with
      | none => simp at hv
      | some c =>
        have hget : c.Get now ipText = some v := by simpa using hv
        obtain ⟨it, hit, hobj⟩ := Cache.items_of_Get c now ipText v hget
        obtain ⟨y, hy, hk, hnc, hwy⟩ := hinv c ipText it rfl hit
        refine ⟨y, by simpa using hy, hk, hnc, v, ?_, ?_⟩
        · rw [← hobj]; exact hwy
        · simpa [handleKey] using hdata
    | cons p0 pre' =>
      simp only [List.cons_append, List.cons.injEq] at hz
      obtain ⟨hp0, htl⟩ := hz
      rcases hcases with hnil | ⟨j, hw, hrest⟩
      · rw [hnil] at htl
        simp at htl
      · rw [hrest] at htl
        have hinv' := StoredByMiss_step env lookupCity prettyL memCache past now ipText j hinv hw
        obtain ⟨hp, y, hy, hrest'⟩ := ih _ _ hinv' pre' x post htl hx
        refine ⟨hp, y, ?_, hrest'⟩
        rw [← hp0]
        simpa [List.append_assoc] using hy

theorem serve_none_prefix {C K : Type} (env : Env C K) (lookupCity prettyL : Bool) :
    ∀ reqs : List (Time × String),
      serve env lookupCity prettyL none reqs <+:
        reqs.map (fun r => handleKey env lookupCity prettyL none 0 r.2) := by
  intro reqs
  induction reqs with
  | nil => simp [serve]
  | cons r rest ih =>
    obtain ⟨now, ipText⟩ := r
    simp only [serve, List.map_cons]
    rw [handleKey_none_time env lookupCity prettyL now 0 ipText]
    cases hw : (handleKey env lookupCity prettyL none 0 ipText).written with
    | error e =>
      simp
    | ok j =>
      simp only [handleKey_none_memCache]
      simpa using ih

/-! ## The claims -/

/-- C1: a request whose key is empty or does not parse as an IP address gets
the payload with `Error = "unable to decode ip"` and no `Data`, the status 400,
and makes no call to the database, whatever the cache, the lookup mode and the
pretty flag.  The empty key is rejected by the parser itself (`net.ParseIP("")`
is nil), which is the hypothesis `hempty`. -/
theorem invalid_key_bad_request {C K : Type} (env : Env C K) (lookupCity prettyL : Bool)
    (memCache : Option Cache) (now : Time) (req : Request)
    (hempty : env.ParseIP "" = none)
    (hkey : ipTextOf req = "" ∨ env.ParseIP (ipTextOf req) = none) :
    (handler env lookupCity prettyL memCache now req).res.Error = "unable to decode ip" ∧
    (handler env lookupCity prettyL memCache now req).res.Data = DataValue.null ∧
    (handler env lookupCity prettyL memCache now req).res.cached = false ∧
    (handler env lookupCity prettyL memCache now req).status = 400 ∧
    (handler env lookupCity prettyL memCache now req).calls = [] := by
  have hp : env.ParseIP (ipTextOf req) = none := by
    rcases hkey with h | h
    · rw [h]; exact hempty
    · exact h
  simp [handler, handleKey, handlerBody_invalid env lookupCity memCache now _ hp,
    StatusBadRequest]

/-- C2, as amended: with caching on, a request whose key does not parse leaves
every entry under another key as it was and stores, under the raw key and with
the default TTL, the bytes it wrote; the TTL of the cache is unchanged. -/
theorem invalid_key_stores_error_payload {C K : Type} (env : Env C K)
    (lookupCity prettyL : Bool) (c : Cache) (now : Time) (ipText : String) (j : Bytes)
    (hkey : env.ParseIP ipText = none)
    (hw : (handleKey env lookupCity prettyL (some c) now ipText).written = Except.ok j) :
    ∃ c', (handleKey env lookupCity prettyL (some c) now ipText).memCache = some c' ∧
      c'.items ipText = some { Object := j, Expiration := now + c.defaultExpiration } ∧
      (∀ k, k ≠ ipText → c'.items k = c.items k) ∧
      c'.defaultExpiration = c.defaultExpiration := by
  refine ⟨c.Set now ipText j 0, ?_, Cache.Set_items_self c now ipText j,
    fun k hk => Cache.Set_items_other c now ipText k j 0 hk, rfl⟩
  have hb := handlerBody_invalid env lookupCity (some c) now ipText hkey
  simp only [handleKey] at hw ⊢
  exact deferred_store env prettyL c now ipText _ j (by rw [hb]) hw

/-- C4: a request whose key parses and is present and unexpired in the cache
makes no call to the database and leaves the cache exactly as it was. -/
theorem hit_has_no_side_effect {C K : Type} (env : Env C K) (lookupCity prettyL : Bool)
    (c : Cache) (now : Time) (ipText : String) (ip : IP) (v : Bytes)
    (hkey : env.ParseIP ipText = some ip)
    (hhit : c.Get now ipText = some v) :
    (handleKey env lookupCity prettyL (some c) now ipText).calls = [] ∧
    (handleKey env lookupCity prettyL (some c) now ipText).memCache = some c ∧
    (handleKey env lookupCity prettyL (some c) now ipText).res.cached = true := by
  have hb := handlerBody_hit env lookupCity (some c) now ipText ip v hkey
    (by simpa using hhit)
  refine ⟨?_, ?_, ?_⟩
  · simp [handleKey, hb]
  · simp only [handleKey]
    exact deferred_cached env prettyL (some c) now ipText _ (by rw [hb])
  · simp [handleKey, hb]

/-- C5: a request whose key parses and misses the cache, with caching on,
stores the bytes it wrote under the raw key with the default TTL and leaves
every other entry as it was, whether the database call succeeded or failed;
a following request for the same key made before the entry expires is a hit
that carries those bytes and makes no call to the database. -/
theorem miss_stores_written_bytes {C K : Type} (env : Env C K) (lookupCity prettyL : Bool)
    (c : Cache) (now : Time) (ipText : String) (ip : IP) (j : Bytes)
    (hkey : env.ParseIP ipText = some ip)
    (hmiss : c.Get now ipText = none)
    (hw : (handleKey env lookupCity prettyL (some c) now ipText).written = Except.ok j) :
    ∃ c', (handleKey env lookupCity prettyL (some c) now ipText).memCache = some c' ∧
      c'.items ipText = some { Object := j, Expiration := now + c.defaultExpiration } ∧
      (∀ k, k ≠ ipText → c'.items k = c.items k) ∧
      c'.defaultExpiration = c.defaultExpiration ∧
      ∀ now', now' ≤ now + c.defaultExpiration →
        (handleKey env lookupCity prettyL (some c') now' ipText).res.cached = true ∧
        (handleKey env lookupCity prettyL (some c') now' ipText).res.Data =
          DataValue.rawMessage j ∧
        (handleKey env lookupCity prettyL (some c') now' ipText).calls = [] := by
  have hnc := handlerBody_miss_not_cached env lookupCity (some c) now ipText
    (by simpa using hmiss)
  refine ⟨c.Set now ipText j 0, ?_, Cache.Set_items_self c now ipText j,
    fun k hk => Cache.Set_items_other c now ipText k j 0 hk, rfl, ?_⟩
  · simp only [handleKey] at hw ⊢
    exact deferred_store env prettyL c now ipText _ j hnc hw
  · intro now' hnow'
    have hget : (c.Set now ipText j 0).Get now' ipText = some j :=
      Cache.Get_of_items _ now' ipText _ (Cache.Set_items_self c now ipText j) hnow'
    have hb := handlerBody_hit env lookupCity (some (c.Set now ipText j 0)) now' ipText ip j
      hkey (by simpa using hget)
    simp [handleKey, hb]

/-- C6: a request whose key parses and is not served from the cache (a miss,
or no cache at all) makes exactly one call to the database, `City` in mode
`city` and `Country` in mode `country`; on success the payload has the record
as `Data` and no `Error`, on an error it has the error text as `Error` and no
`Data`; the status is 200 either way. -/
theorem miss_invokes_resolver_once {C K : Type} (env : Env C K) (lookup : String)
    (lookupCity prettyL : Bool) (memCache : Option Cache) (now : Time)
    (ipText : String) (ip : IP)
    (hmode : lookupCityOf lookup = Except.ok lookupCity)
    (hkey : env.ParseIP ipText = some ip)
    (hmiss : memCache.bind (fun c => c.Get now ipText) = none) :
    (handleKey env lookupCity prettyL memCache now ipText).status = 200 ∧
    (handleKey env lookupCity prettyL memCache now ipText).res.cached = false ∧
    (lookup = "city" ∨ lookup = "country") ∧
    (lookup = "city" →
      (handleKey env lookupCity prettyL memCache now ipText).calls = [Call.City ip] ∧
      (∀ result, env.City ip = Except.ok result →
        (handleKey env lookupCity prettyL memCache now ipText).res.Data =
          DataValue.city result ∧
        (handleKey env lookupCity prettyL memCache now ipText).res.Error = "") ∧
      (∀ err, env.City ip = Except.error err →
        (handleKey env lookupCity prettyL memCache now ipText).res.Error = err ∧
        (handleKey env lookupCity prettyL memCache now ipText).res.Data = DataValue.null)) ∧
    (lookup = "country" →
      (handleKey env lookupCity prettyL memCache now ipText).calls = [Call.Country ip] ∧
      (∀ result, env.Country ip = Except.ok result →
        (handleKey env lookupCity prettyL memCache now ipText).res.Data =
          DataValue.country result ∧
        (handleKey env lookupCity prettyL memCache now ipText).res.Error = "") ∧
      (∀ err, env.Country ip = Except.error err →
        (handleKey env lookupCity prettyL memCache now ipText).res.Error = err ∧
        (handleKey env lookupCity prettyL memCache now ipText).res.Data = DataValue.null)) := by
  have hb := handlerBody_miss env lookupCity memCache now ipText ip hkey hmiss
  have hnc := handlerBody_miss_not_cached env lookupCity memCache now ipText hmiss
  unfold lookupCityOf at hmode
  refine ⟨?_, by simpa [handleKey] using hnc, ?_, ?_, ?_⟩
  · simp only [handleKey, hb]
    cases lookupCity
    · simp only [Bool.false_eq_true, if_false]
      cases env.Country ip <;> rfl
    · simp only [if_true]
      cases env.City ip <;> rfl
  · by_cases h1 : lookup = "country"
    · exact Or.inr h1
    · by_cases h2 : lookup = "city"
      · exact Or.inl h2
      · simp [h1, h2] at hmode
  · intro hl
    have hc : lookupCity = true := by
      subst hl
      simpa using hmode.symm
    subst hc
    simp only [handleKey, hb, if_true]
    refine ⟨?_, ?_, ?_⟩
    · cases env.City ip <;> rfl
    · intro result hr
      rw [hr]
      exact ⟨rfl, rfl⟩
    · intro err hr
      rw [hr]
      exact ⟨rfl, rfl⟩
  · intro hl
    have hc : lookupCity = false := by
      subst hl
      simpa using hmode.symm
    subst hc
    simp only [handleKey, hb, Bool.false_eq_true, if_false]
    refine ⟨?_, ?_, ?_⟩
    · cases env.Country ip <;> rfl
    · intro result hr
      rw [hr]
      exact ⟨rfl, rfl⟩
    · intro err hr
      rw [hr]
      exact ⟨rfl, rfl⟩

/-- C9: the cache is keyed by the raw text of the key.  When nothing is stored
under `k2`, a request for `k2` is a miss even if another spelling `k1` of the
same address is stored: it calls the database, stores the bytes it wrote under
`k2`, and leaves the entry under `k1` as it was. -/
theorem other_spelling_is_separate_entry {C K : Type} (env : Env C K)
    (lookupCity prettyL : Bool) (c : Cache) (now : Time) (k1 k2 : String) (ip : IP)
    (j : Bytes)
    (hne : k1 ≠ k2)
    (hk2 : c.items k2 = none)
    (hkey : env.ParseIP k2 = some ip)
    (hw : (handleKey env lookupCity prettyL (some c) now k2).written = Except.ok j) :
    (handleKey env lookupCity prettyL (some c) now k2).res.cached = false ∧
    (handleKey env lookupCity prettyL (some c) now k2).calls =
      [if lookupCity then Call.City ip else Call.Country ip] ∧
    ∃ c', (handleKey env lookupCity prettyL (some c) now k2).memCache = some c' ∧
      c'.items k2 = some { Object := j, Expiration := now + c.defaultExpiration } ∧
      c'.items k1 = c.items k1 := by
  have hmiss : (some c).bind (fun c => c.Get now k2) = none := by
    simp [Cache.Get, hk2]
  have hb := handlerBody_miss env lookupCity (some c) now k2 ip hkey hmiss
  have hnc := handlerBody_miss_not_cached env lookupCity (some c) now k2 hmiss
  refine ⟨by simpa [handleKey] using hnc, ?_, c.Set now k2 j 0, ?_,
    Cache.Set_items_self c now k2 j, Cache.Set_items_other c now k2 k1 j 0 hne⟩
  · simp only [handleKey, hb]
    cases lookupCity
    · simp only [Bool.false_eq_true, if_false]
      cases env.Country ip <;> rfl
    · simp only [if_true]
      cases env.City ip <;> rfl
  · simp only [handleKey] at hw ⊢
    exact deferred_store env prettyL c now k2 _ j hnc hw

/-- C7: with `-cache 0` no cache is constructed; then, in every run, the
outcome of each request handled is the outcome of handling its key alone with
no cache, whatever the time and whatever came before; no cache appears
afterwards; and every request whose key parses calls the database. -/
theorem disabled_cache_always_resolves {C K : Type} (env : Env C K)
    (lookupCity prettyL : Bool) (cacheNew : Int → Int → Cache) :
    newMemCache cacheNew 0 = none ∧
    (∀ reqs : List (Time × String),
      serve env lookupCity prettyL (newMemCache cacheNew 0) reqs <+:
        reqs.map (fun r => handleKey env lookupCity prettyL none 0 r.2)) ∧
    (∀ (now : Time) (ipText : String),
      (handleKey env lookupCity prettyL (newMemCache cacheNew 0) now ipText).memCache = none ∧
      (handleKey env lookupCity prettyL (newMemCache cacheNew 0) now ipText).res.cached
        = false) ∧
    (∀ (now : Time) (ipText : String) (ip : IP), env.ParseIP ipText = some ip →
      (handleKey env lookupCity prettyL (newMemCache cacheNew 0) now ipText).calls =
        [if lookupCity then Call.City ip else Call.Country ip]) := by
  have h0 : newMemCache cacheNew 0 = none := by simp [newMemCache]
  rw [h0]
  refine ⟨rfl, serve_none_prefix env lookupCity prettyL, ?_, ?_⟩
  · intro now ipText
    refine ⟨handleKey_none_memCache env lookupCity prettyL now ipText, ?_⟩
    simpa [handleKey] using
      handlerBody_miss_not_cached env lookupCity none now ipText rfl
  · intro now ipText ip hkey
    simp only [handleKey, handlerBody_miss env lookupCity none now ipText ip hkey rfl]
    cases lookupCity
    · simp only [Bool.false_eq_true, if_false]
      cases env.Country ip <;> rfl
    · simp only [if_true]
      cases env.City ip <;> rfl

/-- C10: in a run that starts from the empty cache, every request served from
the cache has a key that parses, and the bytes it is served are the bytes
written by an earlier request for the same key that was not served from the
cache; and in any cache state a request whose key does not parse is never
served from the cache, so an entry stored under such a key is never returned. -/
theorem served_entries_come_from_valid_misses {C K : Type} (env : Env C K)
    (lookupCity prettyL : Bool) (ttl : Nat) (reqs : List (Time × String)) :
    (∀ pre x post,
      reqs.zip (serve env lookupCity prettyL (some (Cache.New ttl)) reqs) = pre ++ x :: post →
      x.2.res.cached = true →
      env.ParseIP x.1.2 ≠ none ∧
      ∃ y ∈ pre, y.1.2 = x.1.2 ∧ env.ParseIP y.1.2 ≠ none ∧ y.2.res.cached = false ∧
        ∃ b, y.2.written = Except.ok b ∧ x.2.res.Data = DataValue.rawMessage b) ∧
    (∀ (c : Cache) (now : Time) (ipText : String), env.ParseIP ipText = none →
      (handleKey env lookupCity prettyL (some c) now ipText).res.cached = false ∧
      (handleKey env lookupCity prettyL (some c) now ipText).res.Data = DataValue.null) := by
  constructor
  · intro pre x post hz hx
    have hinv : StoredByMiss (C := C) (K := K) (some (Cache.New ttl)) [] := by
      intro c k it hc hit
      have hceq : Cache.New ttl = c := Option.some.inj hc
      subst hceq
      simp [Cache.New] at hit
    obtain ⟨hp, y, hy, hk, hnc, b, hb, hd⟩ :=
      serve_served_from_past env lookupCity prettyL reqs _ [] hinv pre x post hz hx
    refine ⟨hp, y, by simpa using hy, hk, ?_, hnc, b, hb, hd⟩
    rw [hk]
    exact hp
  · intro c now ipText hkey
    simp [handleKey, handlerBody_invalid env lookupCity (some c) now ipText hkey]

/-- C8, as amended: the pretty flag belongs to the process, not to the request.
In a run of a process with the flag on and caching on, a request whose key
parses and has no entry writes the output of `json.MarshalIndent` for its
payload and stores exactly those bytes under the key; a second request for the
same key made before the entry expires is a hit: it makes no call to the
database, its payload carries the stored bytes, unchanged, as `Data`, and it
leaves the cache as the first request left it. -/
theorem pretty_run_stores_indented_bytes {C K : Type} (env : Env C K) (lookupCity : Bool)
    (c : Cache) (now now' : Time) (ipText : String) (ip : IP) (j : Bytes)
    (hkey : env.ParseIP ipText = some ip)
    (hnew : c.items ipText = none)
    (hw : (handleKey env lookupCity true (some c) now ipText).written = Except.ok j)
    (hnow : now' ≤ now + c.defaultExpiration) :
    ∃ o1 o2 c',
      serve env lookupCity true (some c) [(now, ipText), (now', ipText)] = [o1, o2] ∧
      o1.res.cached = false ∧
      env.MarshalIndent o1.res "" "  " = Except.ok j ∧
      o1.written = Except.ok j ∧
      o1.memCache = some c' ∧
      c'.items ipText = some { Object := j, Expiration := now + c.defaultExpiration } ∧
      o2.res.cached = true ∧
      o2.res.Data = DataValue.rawMessage j ∧
      o2.calls = [] ∧
      o2.memCache = some c' := by
  have hmiss : (some c).bind (fun c => c.Get now ipText) = none := by
    simp [Cache.Get, hnew]
  have hnc := handlerBody_miss_not_cached env lookupCity (some c) now ipText hmiss
  have hmem : (handleKey env lookupCity true (some c) now ipText).memCache =
      some (c.Set now ipText j 0) := by
    simp only [handleKey] at hw ⊢
    exact deferred_store env true c now ipText _ j hnc hw
  have hget : (c.Set now ipText j 0).Get now' ipText = some j :=
    Cache.Get_of_items _ now' ipText _ (Cache.Set_items_self c now ipText j) hnow
  have hb := handlerBody_hit env lookupCity (some (c.Set now ipText j 0)) now' ipText ip j
    hkey (by simpa using hget)
  refine ⟨handleKey env lookupCity true (some c) now ipText,
    handleKey env lookupCity true (some (c.Set now ipText j 0)) now' ipText,
    c.Set now ipText j 0, ?_, ?_, ?_, hw, hmem, Cache.Set_items_self c now ipText j,
    ?_, ?_, ?_, ?_⟩
  · simp only [serve]
    rw [hw]
    simp only [hmem]
    cases (handleKey env lookupCity true (some (c.Set now ipText j 0)) now' ipText).written
      <;> rfl
  · simpa [handleKey] using hnc
  · have h := deferred_written env true (some c) now ipText
      (handlerBody env lookupCity (some c) now ipText).1
    simp only [handleKey] at hw ⊢
    rw [hw] at h
    simpa using h.symm
  · simp [handleKey, hb]
  · simp [handleKey, hb]
  · simp [handleKey, hb]
  · simp only [handleKey]
    exact deferred_cached env true (some (c.Set now ipText j 0)) now' ipText _ (by rw [hb])

/-! ## The claims on concrete requests -/

/-- C1 at a concrete request: the path `/not-an-ip/` with no `ip` parameter. -/
theorem invalid_key_bad_request_witness :
    sampleEnv.ParseIP "" = none ∧
    ipTextOf { queryIp := "", path := "/not-an-ip/" } = "not-an-ip" ∧
    sampleEnv.ParseIP "not-an-ip" = none ∧
    (handler sampleEnv true false (some emptyCache) 0
      { queryIp := "", path := "/not-an-ip/" }).res.Error = "unable to decode ip" ∧
    (handler sampleEnv true false (some emptyCache) 0
      { queryIp := "", path := "/not-an-ip/" }).res.Data = DataValue.null ∧
    (handler sampleEnv true false (some emptyCache) 0
      { queryIp := "", path := "/not-an-ip/" }).res.cached = false ∧
    (handler sampleEnv true false (some emptyCache) 0
      { queryIp := "", path := "/not-an-ip/" }).status = 400 ∧
    (handler sampleEnv true false (some emptyCache) 0
      { queryIp := "", path := "/not-an-ip/" }).calls = [] :=
  ⟨by decide, by decide, by decide,
    invalid_key_bad_request sampleEnv true false (some emptyCache) 0
      { queryIp := "", path := "/not-an-ip/" } (by decide) (Or.inr (by decide))⟩

/-- C2 fails as stated: the key `not-an-ip` does not parse, the cache holds
nothing under it before the request, and after the request it holds the error
payload under that key, so the cache is not the cache before. -/
theorem invalid_key_is_stored :
    sampleEnv.ParseIP "not-an-ip" = none ∧
    emptyCache.items "not-an-ip" = none ∧
    ((handleKey sampleEnv true false (some emptyCache) 0 "not-an-ip").memCache.bind
      (fun c => c.items "not-an-ip")) =
      some { Object := "\x7b\"Error\":\"unable to decode ip\"\x7d", Expiration := 60 } ∧
    (handleKey sampleEnv true false (some emptyCache) 0 "not-an-ip").memCache ≠
      some emptyCache := by
  refine ⟨by decide, by decide, by decide, ?_⟩
  intro h
  have h2 := congrArg (fun m : Option Cache => m.bind (fun c => c.items "not-an-ip")) h
  revert h2
  decide

/-- C2 as amended, at the key `not-an-ip` and the empty cache. -/
theorem invalid_key_stores_error_payload_witness :
    sampleEnv.ParseIP "not-an-ip" = none ∧
    (handleKey sampleEnv true false (some emptyCache) 7 "not-an-ip").written =
      Except.ok "\x7b\"Error\":\"unable to decode ip\"\x7d" ∧
    ∃ c', (handleKey sampleEnv true false (some emptyCache) 7 "not-an-ip").memCache = some c' ∧
      c'.items "not-an-ip" =
        some { Object := "\x7b\"Error\":\"unable to decode ip\"\x7d",
               Expiration := 7 + emptyCache.defaultExpiration } ∧
      (∀ k, k ≠ "not-an-ip" → c'.items k = emptyCache.items k) ∧
      c'.defaultExpiration = emptyCache.defaultExpiration :=
  ⟨by decide, by decide,
    invalid_key_stores_error_payload sampleEnv true false emptyCache 7 "not-an-ip"
      "\x7b\"Error\":\"unable to decode ip\"\x7d" (by decide) (by decide)⟩

/-- C3 on the code: the first request for `8.8.8.8` misses and writes the
payload of the record; the second request, made at once, is a hit, and what it
writes is a new payload that wraps the stored bytes as its `Data`, not the
stored bytes themselves. -/
theorem hit_wraps_stored_bytes :
    (handleKey sampleEnv false false (some emptyCache) 0 "8.8.8.8").written =
      Except.ok "\x7b\"Data\":\x7b\"country\":\"US\"\x7d\x7d" ∧
    (handleKey sampleEnv false false
      (handleKey sampleEnv false false (some emptyCache) 0 "8.8.8.8").memCache
      0 "8.8.8.8").res.cached = true ∧
    (handleKey sampleEnv false false
      (handleKey sampleEnv false false (some emptyCache) 0 "8.8.8.8").memCache
      0 "8.8.8.8").written =
      Except.ok "\x7b\"Data\":\x7b\"Data\":\x7b\"country\":\"US\"\x7d\x7d\x7d" ∧
    (handleKey sampleEnv false false
      (handleKey sampleEnv false false (some emptyCache) 0 "8.8.8.8").memCache
      0 "8.8.8.8").written ≠
      (handleKey sampleEnv false false (some emptyCache) 0 "8.8.8.8").written := by
  decide

/-- C4 at the key `8.8.8.8`, stored at time 0 and read at time 10. -/
theorem hit_has_no_side_effect_witness :
    sampleEnv.ParseIP "8.8.8.8" = some [8, 8, 8, 8] ∧
    warmCache.Get 10 "8.8.8.8" = some "\x7b\"Data\":\x7b\"country\":\"US\"\x7d\x7d" ∧
    (handleKey sampleEnv false false (some warmCache) 10 "8.8.8.8").calls = [] ∧
    (handleKey sampleEnv false false (some warmCache) 10 "8.8.8.8").memCache =
      some warmCache ∧
    (handleKey sampleEnv false false (some warmCache) 10 "8.8.8.8").res.cached = true :=
  ⟨by decide, by decide,
    hit_has_no_side_effect sampleEnv false false warmCache 10 "8.8.8.8" [8, 8, 8, 8]
      "\x7b\"Data\":\x7b\"country\":\"US\"\x7d\x7d" (by decide) (by decide)⟩

/-- C5 at the key `203.0.113.5`, which the database does not know: the error
payload is stored and the next request is a hit. -/
theorem miss_stores_written_bytes_witness :
    sampleEnv.ParseIP "203.0.113.5" = some [203, 0, 113, 5] ∧
    emptyCache.Get 5 "203.0.113.5" = none ∧
    (handleKey sampleEnv true false (some emptyCache) 5 "203.0.113.5").written =
      Except.ok "\x7b\"Error\":\"not found\"\x7d" ∧
    ∃ c', (handleKey sampleEnv true false (some emptyCache) 5 "203.0.113.5").memCache =
        some c' ∧
      c'.items "203.0.113.5" =
        some { Object := "\x7b\"Error\":\"not found\"\x7d",
               Expiration := 5 + emptyCache.defaultExpiration } ∧
      (∀ k, k ≠ "203.0.113.5" → c'.items k = emptyCache.items k) ∧
      c'.defaultExpiration = emptyCache.defaultExpiration ∧
      ∀ now', now' ≤ 5 + emptyCache.defaultExpiration →
        (handleKey sampleEnv true false (some c') now' "203.0.113.5").res.cached = true ∧
        (handleKey sampleEnv true false (some c') now' "203.0.113.5").res.Data =
          DataValue.rawMessage "\x7b\"Error\":\"not found\"\x7d" ∧
        (handleKey sampleEnv true false (some c') now' "203.0.113.5").calls = [] :=
  ⟨by decide, by decide, by decide,
    miss_stores_written_bytes sampleEnv true false emptyCache 5 "203.0.113.5"
      [203, 0, 113, 5] "\x7b\"Error\":\"not found\"\x7d" (by decide) (by decide) (by decide)⟩

/-- C6 at the key `8.8.8.8` in mode `country`, on an empty cache. -/
theorem miss_invokes_resolver_once_witness :
    lookupCityOf "country" = Except.ok false ∧
    sampleEnv.ParseIP "8.8.8.8" = some [8, 8, 8, 8] ∧
    (some emptyCache).bind (fun c => c.Get 0 "8.8.8.8") = none ∧
    sampleEnv.Country [8, 8, 8, 8] = Except.ok "US" ∧
    (handleKey sampleEnv false false (some emptyCache) 0 "8.8.8.8").status = 200 ∧
    (handleKey sampleEnv false false (some emptyCache) 0 "8.8.8.8").calls =
      [Call.Country [8, 8, 8, 8]] ∧
    (handleKey sampleEnv false false (some emptyCache) 0 "8.8.8.8").res.Data =
      DataValue.country "US" ∧
    (handleKey sampleEnv false false (some emptyCache) 0 "8.8.8.8").res.Error = "" :=
  have h := miss_invokes_resolver_once sampleEnv "country" false false (some emptyCache) 0
    "8.8.8.8" [8, 8, 8, 8] (by decide) (by decide) (by decide)
  ⟨by decide, by decide, by decide, by decide, h.1, (h.2.2.2.2 rfl).1,
    ((h.2.2.2.2 rfl).2.1 "US" (by decide)).1, ((h.2.2.2.2 rfl).2.1 "US" (by decide)).2⟩

/-- C8 fails as stated.  In a run of the process with the pretty flag on, the
first request for `8.8.8.8` writes and stores indented bytes and the second, a
hit, writes other bytes.  The handler evaluated with the flag off on the cache
that the first request left (the claim's own scenario, which no run of one
process contains, the flag being fixed at start-up) is a hit as well, and what
it writes is not the indented bytes stored either. -/
theorem pretty_hit_is_serialized_again :
    (serve sampleEnv false true (some emptyCache) [(0, "8.8.8.8"), (1, "8.8.8.8")]).map
      (fun o => (o.res.cached, o.written)) =
      [(false, Except.ok "\x7b\n  \"Data\": \x7b\n    \"country\": \"US\"\n  \x7d\n\x7d"),
       (true, Except.ok
        "\x7b\n  \"Data\": \x7b\n    \"Data\": \x7b\n      \"country\": \"US\"\n    \x7d\n  \x7d\n\x7d")] ∧
    (handleKey sampleEnv false true (some emptyCache) 0 "8.8.8.8").written =
      Except.ok "\x7b\n  \"Data\": \x7b\n    \"country\": \"US\"\n  \x7d\n\x7d" ∧
    (handleKey sampleEnv false false
      (handleKey sampleEnv false true (some emptyCache) 0 "8.8.8.8").memCache
      1 "8.8.8.8").res.cached = true ∧
    (handleKey sampleEnv false false
      (handleKey sampleEnv false true (some emptyCache) 0 "8.8.8.8").memCache
      1 "8.8.8.8").res.Data =
      DataValue.rawMessage "\x7b\n  \"Data\": \x7b\n    \"country\": \"US\"\n  \x7d\n\x7d" ∧
    (handleKey sampleEnv false false
      (handleKey sampleEnv false true (some emptyCache) 0 "8.8.8.8").memCache
      1 "8.8.8.8").written =
      Except.ok "\x7b\"Data\":\x7b\"Data\":\x7b\"country\":\"US\"\x7d\x7d\x7d" ∧
    (handleKey sampleEnv false false
      (handleKey sampleEnv false true (some emptyCache) 0 "8.8.8.8").memCache
      1 "8.8.8.8").written ≠
      (handleKey sampleEnv false true (some emptyCache) 0 "8.8.8.8").written := by
  decide

/-- C8 as amended, at the key `8.8.8.8` and the empty cache: the bytes written
and stored are indented and contain line breaks. -/
theorem pretty_run_stores_indented_bytes_witness :
    sampleEnv.ParseIP "8.8.8.8" = some [8, 8, 8, 8] ∧
    emptyCache.items "8.8.8.8" = none ∧
    (handleKey sampleEnv false true (some emptyCache) 0 "8.8.8.8").written =
      Except.ok "\x7b\n  \"Data\": \x7b\n    \"country\": \"US\"\n  \x7d\n\x7d" ∧
    '\n' ∈ ("\x7b\n  \"Data\": \x7b\n    \"country\": \"US\"\n  \x7d\n\x7d" : String).data ∧
    ∃ o1 o2 c',
      serve sampleEnv false true (some emptyCache) [(0, "8.8.8.8"), (1, "8.8.8.8")] =
        [o1, o2] ∧
      o1.res.cached = false ∧
      sampleEnv.MarshalIndent o1.res "" "  " =
        Except.ok "\x7b\n  \"Data\": \x7b\n    \"country\": \"US\"\n  \x7d\n\x7d" ∧
      o1.written = Except.ok "\x7b\n  \"Data\": \x7b\n    \"country\": \"US\"\n  \x7d\n\x7d" ∧
      o1.memCache = some c' ∧
      c'.items "8.8.8.8" =
        some { Object := "\x7b\n  \"Data\": \x7b\n    \"country\": \"US\"\n  \x7d\n\x7d",
               Expiration := 0 + emptyCache.defaultExpiration } ∧
      o2.res.cached = true ∧
      o2.res.Data =
        DataValue.rawMessage "\x7b\n  \"Data\": \x7b\n    \"country\": \"US\"\n  \x7d\n\x7d" ∧
      o2.calls = [] ∧
      o2.memCache = some c' :=
  ⟨by decide, by decide, by decide, by decide,
    pretty_run_stores_indented_bytes sampleEnv false emptyCache 0 1 "8.8.8.8" [8, 8, 8, 8]
      "\x7b\n  \"Data\": \x7b\n    \"country\": \"US\"\n  \x7d\n\x7d"
      (by decide) (by decide) (by decide) (by decide)⟩

/-- The product of line 34 wraps: a `-cache` value of 9223372037 seconds gives
a negative duration. -/
theorem wrapInt64_overflows : wrapInt64 (9223372037 * Second) < 0 ∧
    wrapInt64 (60 * Second) = 60000000000 := by
  decide

/-- C9 at the two spellings `::1` and `0:0:0:0:0:0:0:1` of the loopback
address: with the first one stored, a request for the second one misses. -/
theorem other_spelling_is_separate_entry_witness :
    sampleEnv.ParseIP "::1" = sampleEnv.ParseIP "0:0:0:0:0:0:0:1" ∧
    sampleEnv.ParseIP "0:0:0:0:0:0:0:1" = some loopback6 ∧
    loopbackCache.items "0:0:0:0:0:0:0:1" = none ∧
    loopbackCache.items "::1" =
      some { Object := "\x7b\"Error\":\"not found\"\x7d", Expiration := 60 } ∧
    (handleKey sampleEnv true false (some loopbackCache) 1 "0:0:0:0:0:0:0:1").written =
      Except.ok "\x7b\"Error\":\"not found\"\x7d" ∧
    (handleKey sampleEnv true false (some loopbackCache) 1 "0:0:0:0:0:0:0:1").res.cached =
      false ∧
    (handleKey sampleEnv true false (some loopbackCache) 1 "0:0:0:0:0:0:0:1").calls =
      [if true then Call.City loopback6 else Call.Country loopback6] ∧
    ∃ c', (handleKey sampleEnv true false (some loopbackCache) 1
        "0:0:0:0:0:0:0:1").memCache = some c' ∧
      c'.items "0:0:0:0:0:0:0:1" =
        some { Object := "\x7b\"Error\":\"not found\"\x7d",
               Expiration := 1 + loopbackCache.defaultExpiration } ∧
      c'.items "::1" = loopbackCache.items "::1" :=
  ⟨by decide, by decide, by decide, by decide, by decide,
    other_spelling_is_separate_entry sampleEnv true false loopbackCache 1 "::1"
      "0:0:0:0:0:0:0:1" loopback6 "\x7b\"Error\":\"not found\"\x7d"
      (by decide) (by decide) (by decide) (by decide)⟩

/-- C7 at three requests for the same key with no cache: each one calls the
database. -/
theorem disabled_cache_always_resolves_witness :
    newMemCache sampleCacheNew 0 = none ∧
    (serve sampleEnv false false (newMemCache sampleCacheNew 0)
      [(0, "8.8.8.8"), (0, "8.8.8.8"), (1, "8.8.8.8")]).map (fun o => o.calls) =
      [[Call.Country [8, 8, 8, 8]], [Call.Country [8, 8, 8, 8]], [Call.Country [8, 8, 8, 8]]] ∧
    (handleKey sampleEnv false false (newMemCache sampleCacheNew 0) 1 "8.8.8.8").calls =
      [if false then Call.City [8, 8, 8, 8] else Call.Country [8, 8, 8, 8]] :=
  ⟨(disabled_cache_always_resolves sampleEnv false false sampleCacheNew).1, by decide,
    (disabled_cache_always_resolves sampleEnv false false sampleCacheNew).2.2.2 1 "8.8.8.8"
      [8, 8, 8, 8] (by decide)⟩

/-- C10 at the run `sampleRun`: only the fourth request is served from the
cache, its key parses, and its bytes were written by the first request; the
third request, whose key was stored by the second, is not served from it. -/
theorem served_entries_come_from_valid_misses_witness :
    sampleTrace.map (fun x => (x.1.2, x.2.res.cached)) =
      [("8.8.8.8", false), ("not-an-ip", false), ("not-an-ip", false), ("8.8.8.8", true)] ∧
    ∀ x, sampleTrace = sampleTrace.take 3 ++ x :: [] →
      sampleEnv.ParseIP x.1.2 ≠ none ∧
      ∃ y ∈ sampleTrace.take 3, y.1.2 = x.1.2 ∧ sampleEnv.ParseIP y.1.2 ≠ none ∧
        y.2.res.cached = false ∧
        ∃ b, y.2.written = Except.ok b ∧ x.2.res.Data = DataValue.rawMessage b :=
  ⟨by decide, fun x hx =>
    (served_entries_come_from_valid_misses sampleEnv false false 60 sampleRun).1
      (sampleTrace.take 3) x [] hx (by
        have h4 : (sampleTrace.map (fun x => x.2.res.cached)) = [false, false, false, true] := by
          decide
        rw [hx] at h4
        simp only [List.map_append, List.map_cons, List.map_nil] at h4
        have h5 := congrArg List.getLast? h4
        simpa using h5)⟩

end GeoIP
